import Mathlib

/-!
Verification development for the sheet diff/sync engine of this repository.

The embedding models the data model and operations of src/aiter8/data_sheet.py
(class DataSheet and class _UpdateContext) together with src/aiter8/llm.py
(function llm_json).  Cell values are one of: string, number, boolean, or the
null/missing marker (pandas NaN/NA).  A DataFrame is an ordered list of column
names plus row-major cell data; row index r maps to sheet row r + 2 and a
0-based column position i maps to the spreadsheet letter of column i + 1.
-/

/-- A cell value: string, number, boolean, or the null/missing marker
(pandas NaN / pd.NA collapse to one null marker; pandas treats all of them
as missing via pd.isna, and DataFrame.compare treats missing == missing). -/
inductive Value where
  | vStr (s : String)
  | vNum (n : Int)
  | vBool (b : Bool)
  | vNull
  deriving DecidableEq, Repr

/-- Models pd.isna on a single cell. -/
def Value.isNull : Value → Bool
  | .vNull => true
  | _ => false

/-- Models the Python str() rendering used by astype(str) in from_sheet:
strings render as themselves, True/False capitalize, NaN renders as "nan". -/
def Value.asPyStr : Value → String
  | .vStr s => s
  | .vNum n => toString n
  | .vBool true => "True"
  | .vBool false => "False"
  | .vNull => "nan"

/-- ASCII uppercase on one character (the str.upper() calls of from_sheet
only ever compare against the ASCII tokens TRUE and FALSE). -/
def upperChar (c : Char) : Char :=
  if 97 ≤ c.toNat ∧ c.toNat ≤ 122 then Char.ofNat (c.toNat - 32) else c

/-- ASCII uppercase on a string, models str.upper(). -/
def upperStr (s : String) : String := String.mk (s.data.map upperChar)

/-- First position of a column name in a column list (models the pandas
column Index lookup; pandas column labels are unique in this code base). -/
def colIndex? : List String → String → Option Nat
  | [], _ => none
  | c :: rest, c0 => if c = c0 then some 0 else (colIndex? rest c0).map (· + 1)

/-- A tabular snapshot: ordered column names plus row-major cell data.
Models the pandas DataFrame underlying DataSheet. -/
structure DataFrame where
  cols : List String
  rows : List (List Value)
  deriving DecidableEq, Repr

/-- Well-formedness: every row has one cell per column. -/
def DataFrame.WF (df : DataFrame) : Prop :=
  ∀ row ∈ df.rows, row.length = df.cols.length

/-- Positional cell access; positions outside the frame read as null
(this models the pd.NA fill used by reindex in _calculate_updates). -/
def DataFrame.cellAt (df : DataFrame) (r i : Nat) : Value :=
  ((df.rows[r]?.getD [])[i]?).getD Value.vNull

/-- Name-based cell access, as in df.loc[r, c]; a column absent from the
frame reads as null, modelling the reindex(columns=final, fill_value=pd.NA)
step of _calculate_updates. -/
def DataFrame.cell (df : DataFrame) (r : Nat) (c : String) : Value :=
  match colIndex? df.cols c with
  | some i => df.cellAt r i
  | none => Value.vNull

/-- Bijective base-26 column letters, 1-based, as computed by
gspread.utils.rowcol_to_a1(1, n)[:-1]: 1 ↦ A, 26 ↦ Z, 27 ↦ AA.
The first argument is structural fuel; fuel = n always suffices. -/
def colLettersAux : Nat → Nat → String
  | 0, _ => ""
  | _, 0 => ""
  | fuel+1, n+1 => colLettersAux fuel (n / 26) ++ String.singleton (Char.ofNat (65 + n % 26))

/-- Column number (1-based) to spreadsheet letters. -/
def colLetters (n : Nat) : String := colLettersAux n n

/-- One batched A1-addressed write instruction, as built by
_calculate_updates: a range string and a single-cell 2D value array. -/
structure UpdateDescriptor where
  range : String
  values : List (List Value)
  deriving DecidableEq, Repr

/-- Columns of the working copy absent from the original, in working-copy
order (Step 1 of _calculate_updates in src/aiter8/data_sheet.py). -/
def newColumnsList (orig copy : DataFrame) : List String :=
  copy.cols.filter (fun c => decide (c ∉ orig.cols))

/-- Header descriptors for new columns: row 1, letter taken from the final
position of the column in the working copy (Step 2 of _calculate_updates). -/
def headerUpdates (orig copy : DataFrame) : List UpdateDescriptor :=
  (newColumnsList orig copy).map (fun c =>
    { range := colLetters ((colIndex? copy.cols c).getD 0 + 1) ++ "1"
      values := [[Value.vStr c]] })

/-- Whether a cell difference is emitted: DataFrame.compare keeps a cell
exactly when the two values are not equal (missing == missing), and the loop
additionally skips pairs where both sides are missing. -/
def emitCell (a b : Value) : Bool :=
  !(a.isNull && b.isNull) && decide (a ≠ b)

/-- Serialization of a working-copy value into a descriptor:
NaN/NA becomes the empty string, everything else passes through. -/
def serializeCell (v : Value) : Value :=
  if v.isNull then Value.vStr "" else v

/-- The (row, column) pairs of cells the diff emits, in row-major order with
columns in working-copy order (Step 4 of _calculate_updates: iterate
diff.index, then the differing columns, skipping both-missing pairs). -/
def changedCells (orig copy : DataFrame) : List (Nat × String) :=
  (List.range orig.rows.length).flatMap (fun r =>
    (copy.cols.filter (fun c => emitCell (orig.cell r c) (copy.cell r c))).map (fun c => (r, c)))

/-- The descriptor written for one changed cell: column letter from the final
column position, sheet row = row index + 2, value serialized. -/
def cellDescriptor (copy : DataFrame) (rc : Nat × String) : UpdateDescriptor :=
  { range := colLetters ((colIndex? copy.cols rc.2).getD 0 + 1) ++ toString (rc.1 + 2)
    values := [[serializeCell (copy.cell rc.1 rc.2)]] }

/-- All cell-update descriptors of the diff. -/
def cellUpdates (orig copy : DataFrame) : List UpdateDescriptor :=
  (changedCells orig copy).map (cellDescriptor copy)

/-- _UpdateContext._calculate_updates: header updates then cell updates. -/
def calculate_updates (orig copy : DataFrame) : List UpdateDescriptor :=
  headerUpdates orig copy ++ cellUpdates orig copy

/-- Folding the working copy into the retained original after a successful
batch write (Step 5 of __exit__): shared columns are assigned from the copy,
new columns are appended, and the column order is made to match the copy;
the original keeps its own row index. -/
def foldBack (orig copy : DataFrame) : DataFrame :=
  { cols := copy.cols
    rows := (List.range orig.rows.length).map (fun r => copy.cols.map (fun c => copy.cell r c)) }

/-- Observable outcome of _UpdateContext.__exit__: whether
worksheet.batch_update was called, the retained original after exit, and the
boolean returned by __exit__ (False re-raises the in-scope exception). -/
structure ExitOutcome where
  remoteCalled : Bool
  finalOriginal : DataFrame
  suppress : Bool
  deriving DecidableEq, Repr

/-- _UpdateContext.__exit__.  excRaised: an exception propagated out of the
with-block; remoteOk: whether worksheet.batch_update succeeds when called.
On an in-scope exception nothing is computed and False is returned; with no
updates the exit is a no-op; on remote failure the exception is caught, the
original is left untouched, and True is still returned. -/
def exitUpdate (excRaised remoteOk : Bool) (orig copy : DataFrame) : ExitOutcome :=
  if excRaised then
    { remoteCalled := false, finalOriginal := orig, suppress := false }
  else
    let updates := calculate_updates orig copy
    if updates.isEmpty then
      { remoteCalled := false, finalOriginal := orig, suppress := true }
    else if remoteOk then
      { remoteCalled := true, finalOriginal := foldBack orig copy, suppress := true }
    else
      { remoteCalled := true, finalOriginal := orig, suppress := true }

/-- Caller mutation df.loc[r, c] = v for a column already present
(the with-block writes modelled by the claims). -/
def DataFrame.setVal (df : DataFrame) (r : Nat) (c : String) (v : Value) : DataFrame :=
  match colIndex? df.cols c with
  | some i => { df with rows := df.rows.set r ((df.rows[r]?.getD []).set i v) }
  | none => df

/-- Caller mutation adding a fresh column with one value per row
(pandas appends new columns after all existing columns). -/
def DataFrame.addCol (df : DataFrame) (c : String) (vals : List Value) : DataFrame :=
  { cols := df.cols ++ [c]
    rows := List.zipWith (fun row v => row ++ [v]) df.rows vals }

/-- The values of column position i, one per row. -/
def DataFrame.column (df : DataFrame) (i : Nat) : List Value :=
  (List.range df.rows.length).map (fun r => df.cellAt r i)

/-- Models the dtype == object test in DataSheet.from_sheet: a pandas column
has object dtype exactly when it holds at least one string value (numeric,
boolean and all-missing columns get numeric or boolean dtypes). -/
def colIsObject (col : List Value) : Bool :=
  col.any (fun v => match v with | .vStr _ => true | _ => false)

/-- The guard of the boolean-normalization block in from_sheet:
the column has object dtype and true_mask.any() or false_mask.any(). -/
def boolColGate (col : List Value) : Bool :=
  colIsObject col &&
    (col.any (fun v => upperStr v.asPyStr == "TRUE") || col.any (fun v => upperStr v.asPyStr == "FALSE"))

/-- Per-cell effect of the TRUE/FALSE masks of from_sheet:
astype(str).str.upper() compared against TRUE and FALSE. -/
def normalizeCell (v : Value) : Value :=
  if upperStr v.asPyStr == "TRUE" then Value.vBool true
  else if upperStr v.asPyStr == "FALSE" then Value.vBool false
  else v

/-- The boolean-normalization pass of DataSheet.from_sheet in
src/aiter8/data_sheet.py: every column passing the gate has its TRUE/FALSE
string values (case-insensitive) replaced by booleans. -/
def from_sheet (df : DataFrame) : DataFrame :=
  { cols := df.cols
    rows := (List.range df.rows.length).map (fun r =>
      (List.range df.cols.length).map (fun i =>
        if boolColGate (df.column i) then normalizeCell (df.cellAt r i) else df.cellAt r i)) }

/-- A JSON value, as produced by json.loads. -/
inductive Json where
  | str (s : String)
  | num (n : Int)
  | bool (b : Bool)
  | null
  | arr (xs : List Json)
  | obj (fields : List (String × Json))

/-- Key lookup in a JSON object. -/
def Json.lookup : Json → String → Option Json
  | .obj fields, k => fields.lookup k
  | _, _ => none

/-- The error-shaped mapping returned by llm_json on any failure. -/
def errorJson (e : String) : Json :=
  Json.obj [("error", Json.str e), ("success", Json.bool false)]

/-- llm_json of src/aiter8/llm.py.  apiResult models the chat-completions
call (its message content on success, the exception text on failure) and
parse models json.loads on that content.  The whole body sits inside
try/except, so the function is total: every failure path returns the
error-shaped mapping instead of raising. -/
def llm_json (apiResult : Except String String) (parse : String → Except String Json) : Json :=
  match apiResult with
  | .error e => errorJson e
  | .ok content =>
    match parse content with
    | .ok j => j
    | .error e => errorJson e

/-! General list helpers used by several proofs. -/

/-- A flatMap whose pieces are all empty is empty. -/
theorem flatMap_eq_nil_of {α β : Type} {l : List α} {f : α → List β}
    (h : ∀ a ∈ l, f a = []) : l.flatMap f = [] := by
  induction l with
  | nil => rfl
  | cons x xs ih =>
    simp only [List.flatMap_cons, h x (by simp), List.nil_append]
    exact ih (fun a ha => h a (by simp [ha]))

/-- A filter rejecting every element is empty. -/
theorem filter_eq_nil_of {α : Type} {l : List α} {p : α → Bool}
    (h : ∀ a ∈ l, p a = false) : l.filter p = [] := by
  rw [List.filter_eq_nil_iff]
  intro a ha
  simp [h a ha]

/-- On a duplicate-free list, a filter accepting exactly one element keeps
exactly that element. -/
theorem filter_eq_singleton_of {α : Type} {l : List α} {p : α → Bool} {a : α}
    (hnd : l.Nodup) (ha : a ∈ l) (hpa : p a = true)
    (hother : ∀ x ∈ l, x ≠ a → p x = false) : l.filter p = [a] := by
  induction l with
  | nil => cases ha
  | cons x xs ih =>
    obtain ⟨hx, hxs⟩ := List.nodup_cons.mp hnd
    rcases List.mem_cons.mp ha with hax | hax
    · subst hax
      rw [List.filter_cons_of_pos hpa]
      have : xs.filter p = [] := by
        apply filter_eq_nil_of
        intro y hy
        exact hother y (by simp [hy]) (fun hya => hx (hya ▸ hy))
      rw [this]
    · have hxa : x ≠ a := fun he => hx (he ▸ hax)
      rw [List.filter_cons_of_neg (by simp [hother x (by simp) hxa])]
      exact ih hxs hax (fun y hy hya => hother y (by simp [hy]) hya)

/-- On a duplicate-free list, a flatMap producing one element at exactly one
position produces exactly that element. -/
theorem flatMap_eq_singleton_of {α β : Type} {l : List α} {f : α → List β} {a : α} {b : β}
    (hnd : l.Nodup) (ha : a ∈ l) (hfa : f a = [b])
    (hother : ∀ x ∈ l, x ≠ a → f x = []) : l.flatMap f = [b] := by
  induction l with
  | nil => cases ha
  | cons x xs ih =>
    obtain ⟨hx, hxs⟩ := List.nodup_cons.mp hnd
    rcases List.mem_cons.mp ha with hax | hax
    · subst hax
      have : xs.flatMap f = [] := by
        apply flatMap_eq_nil_of
        intro y hy
        exact hother y (by simp [hy]) (fun hya => hx (hya ▸ hy))
      simp [List.flatMap_cons, hfa, this]
    · have hxa : x ≠ a := fun he => hx (he ▸ hax)
      rw [List.flatMap_cons, hother x (by simp) hxa, List.nil_append]
      exact ih hxs hax (fun y hy hya => hother y (by simp [hy]) hya)

/-- Membership from an indexed read. -/
theorem mem_of_getElem? {α : Type} {l : List α} {i : Nat} {a : α}
    (h : l[i]? = some a) : a ∈ l := by
  obtain ⟨hlt, he⟩ := List.getElem?_eq_some.mp h
  exact he ▸ List.getElem_mem hlt

/-- Reading inside a zipWith reads both lists. -/
theorem zipWith_getElem? {α β γ : Type} (f : α → β → γ) (l1 : List α) (l2 : List β) (i : Nat) :
    (List.zipWith f l1 l2)[i]? =
      match l1[i]?, l2[i]? with
      | some a, some b => some (f a b)
      | _, _ => none := by
  induction l1 generalizing l2 i with
  | nil => simp
  | cons x xs ih =>
    cases l2 with
    | nil => simp
    | cons y ys =>
      cases i with
      | zero => simp
      | succ j => simpa using ih ys j

/-! Properties of colIndex?. -/

/-- colIndex? finds positions inside the list. -/
theorem colIndex?_lt {l : List String} {c : String} {i : Nat}
    (h : colIndex? l c = some i) : i < l.length := by
  induction l generalizing i with
  | nil => cases h
  | cons x xs ih =>
    by_cases hx : x = c
    · simp only [colIndex?, if_pos hx] at h
      cases h
      simp
    · simp only [colIndex?, if_neg hx] at h
      cases hj : colIndex? xs c with
      | none => rw [hj] at h; cases h
      | some j =>
        rw [hj] at h
        cases h
        have := ih hj
        simp only [List.length_cons]
        omega

/-- The position colIndex? returns holds the requested name. -/
theorem colIndex?_get {l : List String} {c : String} {i : Nat}
    (h : colIndex? l c = some i) : l[i]? = some c := by
  induction l generalizing i with
  | nil => cases h
  | cons x xs ih =>
    by_cases hx : x = c
    · simp only [colIndex?, if_pos hx] at h
      cases h
      simp [hx]
    · simp only [colIndex?, if_neg hx] at h
      cases hj : colIndex? xs c with
      | none => rw [hj] at h; cases h
      | some j =>
        rw [hj] at h
        cases h
        simpa using ih hj

/-- A name in the list has a position. -/
theorem colIndex?_isSome_of_mem {l : List String} {c : String}
    (h : c ∈ l) : ∃ i, colIndex? l c = some i := by
  induction l with
  | nil => cases h
  | cons x xs ih =>
    by_cases hx : x = c
    · exact ⟨0, by simp [colIndex?, hx]⟩
    · rcases List.mem_cons.mp h with he | he
      · exact absurd he.symm hx
      · obtain ⟨i, hi⟩ := ih he
        exact ⟨i + 1, by simp [colIndex?, hx, hi]⟩

/-- A name not in the list has no position. -/
theorem colIndex?_eq_none_of_not_mem {l : List String} {c : String}
    (h : c ∉ l) : colIndex? l c = none := by
  induction l with
  | nil => rfl
  | cons x xs ih =>
    have hx : x ≠ c := fun he => h (by simp [he])
    simp [colIndex?, hx, ih (fun hm => h (by simp [hm]))]

/-- Looking up a member of the left part of an append ignores the right part. -/
theorem colIndex?_append_left {l l2 : List String} {c : String}
    (h : c ∈ l) : colIndex? (l ++ l2) c = colIndex? l c := by
  induction l with
  | nil => cases h
  | cons x xs ih =>
    by_cases hx : x = c
    · simp [colIndex?, hx]
    · rcases List.mem_cons.mp h with he | he
      · exact absurd he.symm hx
      · simp [colIndex?, hx, ih he]

/-- A fresh name appended at the end sits at the old length. -/
theorem colIndex?_append_fresh {l : List String} {c : String}
    (h : c ∉ l) : colIndex? (l ++ [c]) c = some l.length := by
  induction l with
  | nil => simp [colIndex?]
  | cons x xs ih =>
    have hx : x ≠ c := fun he => h (by simp [he])
    simp [colIndex?, hx, ih (fun hm => h (by simp [hm]))]

/-! Properties of the frame operations. -/

/-- emitCell never fires on an unchanged cell. -/
theorem emitCell_self (a : Value) : emitCell a a = false := by
  simp [emitCell]

/-- In this model (one null marker, null equal to null) a cell is emitted
exactly when the two values are unequal. -/
theorem emitCell_eq_true_iff (a b : Value) : emitCell a b = true ↔ a ≠ b := by
  cases a <;> cases b <;> simp [emitCell, Value.isNull]

/-- A row whose cells all agree contributes nothing to changedCells. -/
theorem changedRow_nil {orig copy : DataFrame} {r : Nat}
    (h : ∀ c ∈ copy.cols, orig.cell r c = copy.cell r c) :
    (copy.cols.filter (fun c => emitCell (orig.cell r c) (copy.cell r c))).map
      (fun c => ((r, c) : Nat × String)) = [] := by
  rw [filter_eq_nil_of]
  · rfl
  · intro c hc
    rw [h c hc]
    exact emitCell_self _

/-- A copy whose columns all exist in the original produces no header updates. -/
theorem newColumnsList_eq_nil {orig copy : DataFrame}
    (h : ∀ c ∈ copy.cols, c ∈ orig.cols) : newColumnsList orig copy = [] := by
  apply filter_eq_nil_of
  intro c hc
  simpa using h c hc

/-- Reading a column absent from the frame yields the missing marker. -/
theorem cell_of_not_mem (df : DataFrame) (r : Nat) {c : String}
    (h : c ∉ df.cols) : df.cell r c = Value.vNull := by
  unfold DataFrame.cell
  rw [colIndex?_eq_none_of_not_mem h]

/-- setVal never changes the column list. -/
theorem setVal_cols (df : DataFrame) (r : Nat) (c : String) (v : Value) :
    (df.setVal r c v).cols = df.cols := by
  unfold DataFrame.setVal
  cases colIndex? df.cols c <;> rfl

/-- setVal leaves every other row untouched. -/
theorem setVal_rows_ne (df : DataFrame) (r : Nat) (c : String) (v : Value)
    {r' : Nat} (h : r' ≠ r) : (df.setVal r c v).rows[r']? = df.rows[r']? := by
  unfold DataFrame.setVal
  cases colIndex? df.cols c with
  | none => rfl
  | some i => simp [List.getElem?_set_ne (fun he : r = r' => h he.symm)]

/-- Any cell on another row reads the same after setVal. -/
theorem setVal_cell_ne_row (df : DataFrame) (r : Nat) (c : String) (v : Value)
    {r' : Nat} (c' : String) (h : r' ≠ r) :
    (df.setVal r c v).cell r' c' = df.cell r' c' := by
  unfold DataFrame.cell DataFrame.cellAt
  rw [setVal_cols]
  cases colIndex? df.cols c' with
  | none => rfl
  | some i => rw [setVal_rows_ne df r c v h]

/-- The mutated cell reads the new value. -/
theorem setVal_cell_self (df : DataFrame) (r : Nat) (c : String) (v : Value) {ci : Nat}
    (hci : colIndex? df.cols c = some ci) (hr : r < df.rows.length) (hwf : df.WF) :
    (df.setVal r c v).cell r c = v := by
  have hrow : df.rows[r]? = some df.rows[r] := List.getElem?_eq_getElem hr
  have hmem : df.rows[r] ∈ df.rows := List.getElem_mem hr
  have hlen : df.rows[r].length = df.cols.length := hwf _ hmem
  have hcilt : ci < df.cols.length := colIndex?_lt hci
  unfold DataFrame.setVal
  rw [hci]
  unfold DataFrame.cell
  simp only
  rw [hci]
  unfold DataFrame.cellAt
  simp only
  rw [List.getElem?_set_self (by simpa using hr), hrow]
  simp only [Option.getD_some]
  rw [List.getElem?_set_self (by rw [hlen]; exact hcilt)]
  rfl

/-- Cells of other columns on the mutated row read the same after setVal. -/
theorem setVal_cell_ne_col (df : DataFrame) (r : Nat) (c : String) (v : Value)
    {ci : Nat} (hci : colIndex? df.cols c = some ci)
    {c' : String} {j : Nat} (hj : colIndex? df.cols c' = some j) (hne : j ≠ ci) :
    (df.setVal r c v).cell r c' = df.cell r c' := by
  unfold DataFrame.setVal
  rw [hci]
  unfold DataFrame.cell
  simp only
  rw [hj]
  unfold DataFrame.cellAt
  simp only
  by_cases hr : r < df.rows.length
  · have hrow : df.rows[r]? = some df.rows[r] := List.getElem?_eq_getElem hr
    rw [List.getElem?_set_self (by simpa using hr), hrow]
    simp only [Option.getD_some]
    rw [List.getElem?_set_ne (fun he : ci = j => hne he.symm)]
  · have : df.rows.set r ((df.rows[r]?.getD []).set ci v) = df.rows :=
      List.set_eq_of_length_le (by omega)
    rw [this]

/-- Reading a row of an addCol frame extends the old row by the new value. -/
theorem addCol_rows_getElem? (df : DataFrame) (c : String) (vals : List Value) (r : Nat) :
    (df.addCol c vals).rows[r]? =
      match df.rows[r]?, vals[r]? with
      | some row, some v => some (row ++ [v])
      | _, _ => none := by
  have h := zipWith_getElem? (fun row v => row ++ [v]) df.rows vals r
  cases hx : df.rows[r]? <;> cases hy : vals[r]? <;> rw [hx, hy] at h <;>
    exact h

/-- Cells of pre-existing columns read the same after addCol. -/
theorem addCol_cell_old (df : DataFrame) (c : String) (vals : List Value)
    (hwf : df.WF) (hlen : vals.length = df.rows.length)
    (r : Nat) {c' : String} (hc' : c' ∈ df.cols) :
    (df.addCol c vals).cell r c' = df.cell r c' := by
  obtain ⟨j, hj⟩ := colIndex?_isSome_of_mem hc'
  have hjlt : j < df.cols.length := colIndex?_lt hj
  unfold DataFrame.cell
  have hcols : (df.addCol c vals).cols = df.cols ++ [c] := rfl
  rw [hcols, colIndex?_append_left hc', hj]
  unfold DataFrame.cellAt
  rw [addCol_rows_getElem?]
  by_cases hr : r < df.rows.length
  · have hrow : df.rows[r]? = some df.rows[r] := List.getElem?_eq_getElem hr
    have hv : vals[r]? = some vals[r] := List.getElem?_eq_getElem (by omega)
    rw [hrow, hv]
    simp only [Option.getD_some]
    have hrl : df.rows[r].length = df.cols.length := hwf _ (List.getElem_mem hr)
    rw [List.getElem?_append, if_pos (show j < df.rows[r].length by omega)]
  · have hrow : df.rows[r]? = none := List.getElem?_eq_none (by omega)
    rw [hrow]

/-- The fresh column of an addCol frame reads the supplied values. -/
theorem addCol_cell_new (df : DataFrame) (c : String) (vals : List Value)
    (hwf : df.WF) (hlen : vals.length = df.rows.length) (hc : c ∉ df.cols)
    (r : Nat) (hr : r < df.rows.length) :
    (df.addCol c vals).cell r c = vals[r]?.getD Value.vNull := by
  unfold DataFrame.cell
  have hcols : (df.addCol c vals).cols = df.cols ++ [c] := rfl
  rw [hcols, colIndex?_append_fresh hc]
  unfold DataFrame.cellAt
  rw [addCol_rows_getElem?]
  have hrow : df.rows[r]? = some df.rows[r] := List.getElem?_eq_getElem hr
  have hv : vals[r]? = some vals[r] := List.getElem?_eq_getElem (by omega)
  rw [hrow, hv]
  simp only [Option.getD_some]
  have hrl : df.rows[r].length = df.cols.length := hwf _ (List.getElem_mem hr)
  rw [← hrl, List.getElem?_concat_length]
  rfl

/-- After a successful fold-back, every copy column reads the copy value on
rows the original owns. -/
theorem foldBack_cell (orig copy : DataFrame) {r : Nat} {c : String} {i : Nat}
    (hr : r < orig.rows.length) (hi : colIndex? copy.cols c = some i) :
    (foldBack orig copy).cell r c = copy.cell r c := by
  unfold DataFrame.cell foldBack
  simp only
  rw [hi]
  unfold DataFrame.cellAt
  simp only
  have h1 : ((List.range orig.rows.length).map
      (fun r => copy.cols.map (fun c => copy.cell r c)))[r]? =
      some (copy.cols.map (fun c => copy.cell r c)) := by
    rw [List.getElem?_map, List.getElem?_eq_getElem (by simpa using hr)]
    simp
  rw [h1]
  simp only [Option.getD_some]
  rw [List.getElem?_map, colIndex?_get hi]
  simp only [Option.map_some', Option.getD_some]
  unfold DataFrame.cell
  rw [hi]
  rfl

/-- Diffing a frame against itself produces no updates. -/
theorem calculate_updates_self (df : DataFrame) : calculate_updates df df = [] := by
  unfold calculate_updates headerUpdates cellUpdates changedCells
  rw [newColumnsList_eq_nil (fun c hc => hc)]
  rw [flatMap_eq_nil_of (fun r _ => changedRow_nil (fun c _ => rfl))]
  rfl

/-- C2.  For every snapshot S, if the working copy is exited with zero
mutations (the copy equals S in columns and values), then no remote
batch-write call is issued and the retained original S is unchanged after
exit (and __exit__ reports a normal, successful exit). -/
theorem noop_exit_law (df : DataFrame) (remoteOk : Bool) :
    exitUpdate false remoteOk df df =
      { remoteCalled := false, finalOriginal := df, suppress := true } := by
  unfold exitUpdate
  simp [calculate_updates_self]

/-- C3.  For every snapshot S and every set of working-copy mutations, if the
remote batch-write call raises, the retained original S is unchanged after
exit: no fold-back of the working copy occurs, however many update
descriptors were computed. -/
theorem remote_failure_no_fold (orig copy : DataFrame) :
    (exitUpdate false false orig copy).finalOriginal = orig := by
  unfold exitUpdate
  by_cases h : (calculate_updates orig copy).isEmpty <;> simp [h]

/-- C4.  For every snapshot S, if an exception propagates out of the mutation
scope, no remote call is made, the retained original S is unchanged (the
working copy is discarded without being folded back), and __exit__ returns
False so the original exception is re-raised to the caller. -/
theorem exception_exit_law (orig copy : DataFrame) (remoteOk : Bool) :
    exitUpdate true remoteOk orig copy =
      { remoteCalled := false, finalOriginal := orig, suppress := false } := rfl

/-- C10.  If the remote batch-write call raises during Update Context exit
(so some update descriptors existed and the call was actually made), the
failure is not propagated: __exit__ still returns True, the with-block
completes normally, and the caller receives no signal that the write failed. -/
theorem remote_failure_swallowed (orig copy : DataFrame)
    (h : calculate_updates orig copy ≠ []) :
    exitUpdate false false orig copy =
      { remoteCalled := true, finalOriginal := orig, suppress := true } := by
  unfold exitUpdate
  simp [h]

/-- C9.  For every prompt, the LLM JSON endpoint wrapper never raises (it is
a total function of the call outcome): on success it returns the parsed JSON
mapping, and on any failure (API error or unparsable response) it returns an
error-shaped mapping holding an error string under the key error and false
under the key success. -/
theorem llm_json_never_raises (apiResult : Except String String)
    (parse : String → Except String Json) :
    (∃ content j, apiResult = Except.ok content ∧ parse content = Except.ok j ∧
        llm_json apiResult parse = j) ∨
    (∃ e, (llm_json apiResult parse).lookup "error" = some (Json.str e) ∧
        (llm_json apiResult parse).lookup "success" = some (Json.bool false)) := by
  cases apiResult with
  | error e =>
    right
    exact ⟨e, rfl, rfl⟩
  | ok content =>
    cases hp : parse content with
    | ok j =>
      left
      exact ⟨content, j, rfl, hp, by simp [llm_json, hp]⟩
    | error e =>
      right
      refine ⟨e, ?_, ?_⟩ <;> simp [llm_json, hp] <;> rfl

/-- Concrete snapshot used by the C10 witness. -/
def dfC10 : DataFrame := ⟨["a"], [[Value.vStr "x"]]⟩

/-- Concrete working copy used by the C10 witness. -/
def dfC10copy : DataFrame := ⟨["a"], [[Value.vStr "y"]]⟩

/-- Witness for C10 at a one-cell mutation whose remote write fails. -/
theorem remote_failure_swallowed_witness :
    exitUpdate false false dfC10 dfC10copy =
      { remoteCalled := true, finalOriginal := dfC10, suppress := true } :=
  remote_failure_swallowed dfC10 dfC10copy (by decide)

/-- C6.  For every cell present in both the original and the working copy, a
cell-update descriptor is emitted if and only if the two values differ and
they are not both null/missing; a cell null in the original and still null
in the copy never produces a descriptor. -/
theorem cell_diff_emitted_iff (orig copy : DataFrame) (r : Nat) (cn : String)
    (hr : r < orig.rows.length) (hc : cn ∈ copy.cols) :
    ((r, cn) ∈ changedCells orig copy ↔
      (orig.cell r cn ≠ copy.cell r cn ∧
        ¬(orig.cell r cn = Value.vNull ∧ copy.cell r cn = Value.vNull))) := by
  constructor
  · intro hmem
    obtain ⟨r', _, hmem2⟩ := List.mem_flatMap.mp hmem
    obtain ⟨c, hcf, heq⟩ := List.mem_map.mp hmem2
    obtain ⟨_, hemit⟩ := List.mem_filter.mp hcf
    injection heq with h1 h2
    subst h1
    subst h2
    have hne := (emitCell_eq_true_iff _ _).mp hemit
    exact ⟨hne, fun hb => hne (hb.1.trans hb.2.symm)⟩
  · intro hdiff
    apply List.mem_flatMap.mpr
    exact ⟨r, List.mem_range.mpr hr,
      List.mem_map.mpr ⟨cn,
        List.mem_filter.mpr ⟨hc, (emitCell_eq_true_iff _ _).mpr hdiff.1⟩, rfl⟩⟩

/-- Concrete snapshot used by the C6 witness (a null cell). -/
def dfC6 : DataFrame := ⟨["a"], [[Value.vNull]]⟩

/-- Concrete working copy used by the C6 witness (null changed to ""). -/
def dfC6copy : DataFrame := ⟨["a"], [[Value.vStr ""]]⟩

/-- Witness for C6 on the null-to-empty-string mutation the claim singles
out: the descriptor is emitted because null and "" are distinct values. -/
theorem cell_diff_emitted_iff_witness :
    ((0, "a") ∈ changedCells dfC6 dfC6copy ↔
      (dfC6.cell 0 "a" ≠ dfC6copy.cell 0 "a" ∧
        ¬(dfC6.cell 0 "a" = Value.vNull ∧ dfC6copy.cell 0 "a" = Value.vNull))) :=
  cell_diff_emitted_iff dfC6 dfC6copy 0 "a" (by decide) (by decide)

/-- C7.  Every emitted cell-update descriptor carries the working-copy value
of its cell: the empty string when that value is null/missing, and the value
itself, unchanged, otherwise. -/
theorem update_value_serialization (orig copy : DataFrame) (u : UpdateDescriptor)
    (hu : u ∈ cellUpdates orig copy) :
    ∃ rc ∈ changedCells orig copy,
      ((copy.cell rc.1 rc.2).isNull = true → u.values = [[Value.vStr ""]]) ∧
      ((copy.cell rc.1 rc.2).isNull = false → u.values = [[copy.cell rc.1 rc.2]]) := by
  obtain ⟨rc, hrc, rfl⟩ := List.mem_map.mp hu
  refine ⟨rc, hrc, ?_, ?_⟩ <;> intro h <;> simp [cellDescriptor, serializeCell, h]

/-- Concrete snapshot used by the C7 witness. -/
def dfC7 : DataFrame := ⟨["a"], [[Value.vStr "x"]]⟩

/-- Concrete working copy used by the C7 witness (cell set to null). -/
def dfC7copy : DataFrame := ⟨["a"], [[Value.vNull]]⟩

/-- Witness for C7 on a cell set to null: its descriptor carries "". -/
theorem update_value_serialization_witness :
    ∃ rc ∈ changedCells dfC7 dfC7copy,
      ((dfC7copy.cell rc.1 rc.2).isNull = true →
        (UpdateDescriptor.mk "A2" [[Value.vStr ""]]).values = [[Value.vStr ""]]) ∧
      ((dfC7copy.cell rc.1 rc.2).isNull = false →
        (UpdateDescriptor.mk "A2" [[Value.vStr ""]]).values = [[dfC7copy.cell rc.1 rc.2]]) :=
  update_value_serialization dfC7 dfC7copy ⟨"A2", [[Value.vStr ""]]⟩ (by decide)

/-- A cell belongs to its column. -/
theorem cellAt_mem_column (df : DataFrame) (r i : Nat) (hr : r < df.rows.length) :
    df.cellAt r i ∈ df.column i := by
  unfold DataFrame.column
  exact List.mem_map.mpr ⟨r, List.mem_range.mpr hr, rfl⟩

/-- Pointwise description of the loader normalization pass. -/
theorem from_sheet_cellAt (df : DataFrame) (r i : Nat)
    (hr : r < df.rows.length) (hi : i < df.cols.length) :
    (from_sheet df).cellAt r i =
      if boolColGate (df.column i) then normalizeCell (df.cellAt r i)
      else df.cellAt r i := by
  have h1 : (from_sheet df).rows[r]? =
      some ((List.range df.cols.length).map
        (fun j => if boolColGate (df.column j) then normalizeCell (df.cellAt r j)
          else df.cellAt r j)) := by
    show ((List.range df.rows.length).map
      (fun r0 => (List.range df.cols.length).map
        (fun j => if boolColGate (df.column j) then normalizeCell (df.cellAt r0 j)
          else df.cellAt r0 j)))[r]? = _
    rw [List.getElem?_map, List.getElem?_eq_getElem (by simpa using hr)]
    simp [List.getElem_range]
  show (((from_sheet df).rows[r]?.getD [])[i]?).getD Value.vNull = _
  rw [h1]
  simp only [Option.getD_some]
  rw [List.getElem?_map, List.getElem?_eq_getElem (by simpa using hi)]
  simp [List.getElem_range]

/-- C8.  For every snapshot loaded by the Sheet Loader, in every column: a
string value equal to TRUE under case-insensitive comparison becomes boolean
true, a string value equal to FALSE becomes boolean false, and every value
matching neither token is left unchanged. -/
theorem bool_normalization (df : DataFrame) (r i : Nat)
    (hr : r < df.rows.length) (hi : i < df.cols.length) :
    (∀ s, df.cellAt r i = Value.vStr s → upperStr s = "TRUE" →
        (from_sheet df).cellAt r i = Value.vBool true) ∧
    (∀ s, df.cellAt r i = Value.vStr s → upperStr s = "FALSE" →
        (from_sheet df).cellAt r i = Value.vBool false) ∧
    (upperStr (df.cellAt r i).asPyStr ≠ "TRUE" →
      upperStr (df.cellAt r i).asPyStr ≠ "FALSE" →
        (from_sheet df).cellAt r i = df.cellAt r i) := by
  rw [from_sheet_cellAt df r i hr hi]
  refine ⟨?_, ?_, ?_⟩
  · intro s hs hup
    have hgate : boolColGate (df.column i) = true := by
      unfold boolColGate colIsObject
      simp only [Bool.and_eq_true, Bool.or_eq_true, List.any_eq_true]
      constructor
      · exact ⟨df.cellAt r i, cellAt_mem_column df r i hr, by rw [hs]⟩
      · exact Or.inl ⟨df.cellAt r i, cellAt_mem_column df r i hr,
          by rw [hs]; simp [Value.asPyStr, hup]⟩
    rw [if_pos hgate]
    unfold normalizeCell
    rw [hs]
    simp [Value.asPyStr, hup]
  · intro s hs hup
    have hgate : boolColGate (df.column i) = true := by
      unfold boolColGate colIsObject
      simp only [Bool.and_eq_true, Bool.or_eq_true, List.any_eq_true]
      constructor
      · exact ⟨df.cellAt r i, cellAt_mem_column df r i hr, by rw [hs]⟩
      · exact Or.inr ⟨df.cellAt r i, cellAt_mem_column df r i hr,
          by rw [hs]; simp [Value.asPyStr, hup]⟩
    rw [if_pos hgate]
    unfold normalizeCell
    rw [hs]
    simp [Value.asPyStr, hup]
  · intro h1 h2
    have hnorm : normalizeCell (df.cellAt r i) = df.cellAt r i := by
      have c1 : (upperStr (df.cellAt r i).asPyStr == "TRUE") = false := by
        simp [h1]
      have c2 : (upperStr (df.cellAt r i).asPyStr == "FALSE") = false := by
        simp [h2]
      unfold normalizeCell
      simp [c1, c2]
    by_cases hg : boolColGate (df.column i) <;> simp [hg, hnorm]

/-- Concrete frame used by the C8 witness: a mixed-case TRUE string. -/
def dfC8 : DataFrame := ⟨["flag"], [[Value.vStr "tRuE"]]⟩

/-- Witness for C8: the mixed-case string tRuE is normalized to true. -/
theorem bool_normalization_witness :
    (∀ s, dfC8.cellAt 0 0 = Value.vStr s → upperStr s = "TRUE" →
        (from_sheet dfC8).cellAt 0 0 = Value.vBool true) ∧
    (∀ s, dfC8.cellAt 0 0 = Value.vStr s → upperStr s = "FALSE" →
        (from_sheet dfC8).cellAt 0 0 = Value.vBool false) ∧
    (upperStr (dfC8.cellAt 0 0).asPyStr ≠ "TRUE" →
      upperStr (dfC8.cellAt 0 0).asPyStr ≠ "FALSE" →
        (from_sheet dfC8).cellAt 0 0 = dfC8.cellAt 0 0) :=
  bool_normalization dfC8 0 0 (by decide) (by decide)

/-- C1 (amended).  For every snapshot S and every single-cell mutation
(row r, column cn at position ci, new value v) with v different from
S[r][cn], exiting the Update Context without an exception and with a
successful remote write emits exactly one cell-update descriptor, addressed
at the column letter of ci and sheet row r + 2, carrying [[v]] when v is
non-null and [[""]] when v is null; and after exit the retained original
satisfies S[r][cn] == v. -/
theorem single_cell_update (df : DataFrame) (r ci : Nat) (cn : String) (v : Value)
    (hwf : df.WF) (hnd : df.cols.Nodup)
    (hci : colIndex? df.cols cn = some ci) (hr : r < df.rows.length)
    (hv : v ≠ df.cell r cn) :
    calculate_updates df (df.setVal r cn v) =
      [{ range := colLetters (ci + 1) ++ toString (r + 2)
         values := [[serializeCell v]] }] ∧
    (exitUpdate false true df (df.setVal r cn v)).finalOriginal.cell r cn = v := by
  set copy := df.setVal r cn v with hdef
  have hcols : copy.cols = df.cols := setVal_cols df r cn v
  have hcmem : cn ∈ df.cols := mem_of_getElem? (colIndex?_get hci)
  have hcell : copy.cell r cn = v := setVal_cell_self df r cn v hci hr hwf
  have hci' : colIndex? copy.cols cn = some ci := by rw [hcols]; exact hci
  have hchanged : changedCells df copy = [(r, cn)] := by
    unfold changedCells
    apply flatMap_eq_singleton_of (List.nodup_range _) (List.mem_range.mpr hr)
    · have hfilter :
          copy.cols.filter (fun c => emitCell (df.cell r c) (copy.cell r c)) = [cn] := by
        apply filter_eq_singleton_of (hcols ▸ hnd) (hcols ▸ hcmem)
        · rw [hcell]
          exact (emitCell_eq_true_iff _ _).mpr (fun he => hv he.symm)
        · intro c' hc' hne
          obtain ⟨j, hj⟩ := colIndex?_isSome_of_mem (hcols ▸ hc' : c' ∈ df.cols)
          have hji : j ≠ ci := by
            intro he
            rw [he] at hj
            have h1 := colIndex?_get hj
            have h2 := colIndex?_get hci
            rw [h1] at h2
            injection h2 with h3
            exact hne h3
          rw [setVal_cell_ne_col df r cn v hci hj hji]
          exact emitCell_self _
      rw [hfilter]
      rfl
    · intro r' hr' hner
      apply changedRow_nil
      intro c hcm
      exact (setVal_cell_ne_row df r cn v c hner).symm
  have hheader : headerUpdates df copy = [] := by
    unfold headerUpdates
    rw [newColumnsList_eq_nil (fun c hc => hcols ▸ hc)]
    rfl
  have hcalc : calculate_updates df copy =
      [{ range := colLetters (ci + 1) ++ toString (r + 2)
         values := [[serializeCell v]] }] := by
    unfold calculate_updates cellUpdates
    rw [hheader, hchanged]
    simp only [List.nil_append, List.map_cons, List.map_nil]
    unfold cellDescriptor
    simp only
    rw [hci', hcell]
    rfl
  refine ⟨hcalc, ?_⟩
  have hexit : exitUpdate false true df copy =
      { remoteCalled := true, finalOriginal := foldBack df copy, suppress := true } := by
    unfold exitUpdate
    simp [hcalc]
  rw [hexit]
  rw [foldBack_cell df copy hr hci']
  exact hcell

/-- Concrete snapshot used by the C1 counterexample and witness. -/
def dfC1 : DataFrame := ⟨["id", "col_b"], [[Value.vNum 1, Value.vStr "B2_val"],
  [Value.vNum 2, Value.vStr "B3_val"]]⟩

/-- Counterexample to C1 as stated: setting a non-null cell to null is a
single-cell mutation with v different from S[r][c], yet the one emitted
descriptor carries [[""]], not [[null]] as the claim literally requires. -/
theorem single_cell_update_counterexample :
    Value.vNull ≠ dfC1.cell 0 "col_b" ∧
    calculate_updates dfC1 (dfC1.setVal 0 "col_b" Value.vNull) =
      [{ range := "B2", values := [[Value.vStr ""]] }] ∧
    calculate_updates dfC1 (dfC1.setVal 0 "col_b" Value.vNull) ≠
      [{ range := "B2", values := [[Value.vNull]] }] := by
  refine ⟨by decide, by decide, by decide⟩

/-- Witness for C1 on the concrete scenario of the spec: mutate row 1 of
col_b and observe the single B3 descriptor and the folded-back original. -/
theorem single_cell_update_witness :
    calculate_updates dfC1 (dfC1.setVal 1 "col_b" (Value.vStr "Updated B3")) =
      [{ range := colLetters (1 + 1) ++ toString (1 + 2)
         values := [[serializeCell (Value.vStr "Updated B3")]] }] ∧
    (exitUpdate false true dfC1
        (dfC1.setVal 1 "col_b" (Value.vStr "Updated B3"))).finalOriginal.cell 1 "col_b" =
      Value.vStr "Updated B3" :=
  single_cell_update dfC1 1 1 "col_b" (Value.vStr "Updated B3")
    (by unfold DataFrame.WF; decide) (by decide) (by decide) (by decide) (by decide)

/-- C5.  For every snapshot S, adding exactly one new column with a non-null
value on exactly one row emits exactly one header descriptor (row 1, column
letter continuing from the current column count) and exactly one value
descriptor (for that row only); rows left null in the new column get no
descriptor, and after a successful exit those rows still read null in the
retained original. -/
theorem new_column_single_value (df : DataFrame) (cname : String) (vals : List Value)
    (r0 : Nat) (v : Value)
    (hwf : df.WF) (hnd : df.cols.Nodup) (hcn : cname ∉ df.cols)
    (hlen : vals.length = df.rows.length) (hr0 : r0 < df.rows.length)
    (hv : vals[r0]? = some v) (hvnn : v.isNull = false)
    (hrest : ∀ r' < df.rows.length, r' ≠ r0 → vals[r']? = some Value.vNull) :
    calculate_updates df (df.addCol cname vals) =
      [{ range := colLetters (df.cols.length + 1) ++ "1"
         values := [[Value.vStr cname]] },
       { range := colLetters (df.cols.length + 1) ++ toString (r0 + 2)
         values := [[v]] }] ∧
    (∀ r' < df.rows.length, r' ≠ r0 →
      (exitUpdate false true df (df.addCol cname vals)).finalOriginal.cell r' cname =
        Value.vNull) := by
  set copy := df.addCol cname vals with hdef
  have hcols : copy.cols = df.cols ++ [cname] := rfl
  have hvne : Value.vNull ≠ v := by
    intro he
    rw [← he] at hvnn
    simp [Value.isNull] at hvnn
  have hidx : colIndex? copy.cols cname = some df.cols.length := by
    rw [hcols]
    exact colIndex?_append_fresh hcn
  have hnd' : copy.cols.Nodup := by
    rw [hcols, List.nodup_append]
    refine ⟨hnd, List.nodup_singleton _, ?_⟩
    intro a ha hamem
    rw [List.mem_singleton] at hamem
    exact hcn (hamem ▸ ha)
  have hnewcell : ∀ r' < df.rows.length,
      copy.cell r' cname = vals[r']?.getD Value.vNull :=
    fun r' h => addCol_cell_new df cname vals hwf hlen hcn r' h
  have holdcell : ∀ (r' : Nat) (c' : String), c' ∈ df.cols →
      copy.cell r' c' = df.cell r' c' :=
    fun r' c' hm => addCol_cell_old df cname vals hwf hlen r' hm
  have hmemsplit : ∀ c' ∈ copy.cols, c' ≠ cname → c' ∈ df.cols := by
    intro c' hc' hne
    rw [hcols] at hc'
    rcases List.mem_append.mp hc' with h | h
    · exact h
    · exact absurd (List.mem_singleton.mp h) hne
  have hheader : headerUpdates df copy =
      [{ range := colLetters (df.cols.length + 1) ++ "1"
         values := [[Value.vStr cname]] }] := by
    unfold headerUpdates newColumnsList
    have hfil : copy.cols.filter (fun c => decide (c ∉ df.cols)) = [cname] := by
      rw [hcols, List.filter_append]
      rw [filter_eq_nil_of (fun c hc => by simp [hc])]
      simp [hcn]
    rw [hfil]
    simp only [List.map_cons, List.map_nil]
    rw [hidx]
    rfl
  have hchanged : changedCells df copy = [(r0, cname)] := by
    unfold changedCells
    apply flatMap_eq_singleton_of (List.nodup_range _) (List.mem_range.mpr hr0)
    · have hfilter :
          copy.cols.filter (fun c => emitCell (df.cell r0 c) (copy.cell r0 c)) = [cname] := by
        apply filter_eq_singleton_of hnd' (by rw [hcols]; simp)
        · rw [hnewcell r0 hr0, hv, cell_of_not_mem df r0 hcn]
          simp only [Option.getD_some]
          exact (emitCell_eq_true_iff _ _).mpr hvne
        · intro c' hc' hne
          rw [holdcell r0 c' (hmemsplit c' hc' hne)]
          exact emitCell_self _
      rw [hfilter]
      rfl
    · intro r' hr' hner
      apply changedRow_nil
      intro c hcm
      by_cases hcc : c = cname
      · subst hcc
        rw [hnewcell r' (List.mem_range.mp hr'),
          hrest r' (List.mem_range.mp hr') hner, cell_of_not_mem df r' hcn]
        rfl
      · exact (holdcell r' c (hmemsplit c hcm hcc)).symm
  have hcalc : calculate_updates df copy =
      [{ range := colLetters (df.cols.length + 1) ++ "1"
         values := [[Value.vStr cname]] },
       { range := colLetters (df.cols.length + 1) ++ toString (r0 + 2)
         values := [[v]] }] := by
    unfold calculate_updates cellUpdates
    rw [hheader, hchanged]
    simp only [List.map_cons, List.map_nil]
    unfold cellDescriptor
    simp only
    rw [hidx, hnewcell r0 hr0, hv]
    simp only [Option.getD_some, Option.getD_some]
    have hser : serializeCell v = v := by
      unfold serializeCell
      rw [hvnn]
      rfl
    rw [hser]
    rfl
  refine ⟨hcalc, ?_⟩
  intro r' hr' hner
  have hexit : exitUpdate false true df copy =
      { remoteCalled := true, finalOriginal := foldBack df copy, suppress := true } := by
    unfold exitUpdate
    simp [hcalc]
  rw [hexit]
  rw [foldBack_cell df copy hr' hidx]
  rw [hnewcell r' hr', hrest r' hr' hner]
  rfl

/-- Concrete snapshot used by the C5 witness. -/
def dfC5 : DataFrame := ⟨["a"], [[Value.vStr "x"], [Value.vStr "y"]]⟩

/-- Witness for C5: a fresh column with one non-null value on row 1 of a
two-row, one-column frame. -/
theorem new_column_single_value_witness :
    calculate_updates dfC5 (dfC5.addCol "b" [Value.vNull, Value.vStr "z"]) =
      [{ range := colLetters (dfC5.cols.length + 1) ++ "1"
         values := [[Value.vStr "b"]] },
       { range := colLetters (dfC5.cols.length + 1) ++ toString (1 + 2)
         values := [[Value.vStr "z"]] }] ∧
    (∀ r' < dfC5.rows.length, r' ≠ 1 →
      (exitUpdate false true dfC5
          (dfC5.addCol "b" [Value.vNull, Value.vStr "z"])).finalOriginal.cell r' "b" =
        Value.vNull) :=
  new_column_single_value dfC5 "b" [Value.vNull, Value.vStr "z"] 1 (Value.vStr "z")
    (by unfold DataFrame.WF; decide) (by decide) (by decide) (by decide) (by decide)
    (by decide) (by decide) (by decide)
